import Mathlib

/-!
Shallow embedding of the tab & session lifecycle engine of the LightPad
web-notepad repository (src/src/script.js and the pane registry module
src/unnamed/part_001, i.e. panes.js).

JavaScript strings are modelled as Lean `String`, JS `null`/`undefined`
as `Option.none`, arrays as `List`, and the single-threaded mutation of
module-level globals as explicit state passing.  Asynchronous collaborator
boundaries (filesystem, OS dialogs, confirmation modal) are modelled as
explicit inputs: `fs : String → Option String` (a file's readable content,
`none` when missing/unreadable), the dialog answer, and whether a write
succeeds.  Filesystem writes are recorded in an output trace.
-/

namespace WebNotepad

/-- A tab record as built by `createNewTab` / `loadSession` in script.js.
`doc` is the tab's current live text (the CodeMirror document held in
`tab.state` / `editorView`, or the Quill root innerHTML for `.doc` tabs);
`savedContent` is the last saved snapshot (`null` if never established). -/
structure CTab where
  id : String
  path : Option String
  title : String
  isUnsaved : Bool
  isTodo : Bool
  isDoc : Bool
  savedContent : Option String
  doc : String
  deriving Repr, DecidableEq

/-! JS string primitives, modelled over `List Char` so that every operation
is structurally recursive and evaluates inside the kernel. -/

/-- JS `String.prototype.split(sep)` for a one-character separator
(the only kind the source uses). -/
def splitOnChar (sep : Char) : List Char → List (List Char)
  | [] => [[]]
  | c :: cs =>
    let rest := splitOnChar sep cs
    if c == sep then [] :: rest
    else
      match rest with
      | [] => [[c]]
      | r :: rs => (c :: r) :: rs

def charsIsPrefixOf : List Char → List Char → Bool
  | [], _ => true
  | _ :: _, [] => false
  | a :: as, b :: bs => a == b && charsIsPrefixOf as bs

/-- JS `String.prototype.includes` (substring containment). -/
def charsIncludes (needle : List Char) : List Char → Bool
  | [] => needle.isEmpty
  | b :: bs => charsIsPrefixOf needle (b :: bs) || charsIncludes needle bs

def strIncludes (s sub : String) : Bool :=
  charsIncludes sub.data s.data

/-- JS `String.prototype.endsWith`. -/
def strEndsWith (s tail : String) : Bool :=
  charsIsPrefixOf tail.data.reverse s.data.reverse

/-- JS `String.prototype.toLowerCase` (ASCII, as in `Char.toLower`). -/
def strToLower (s : String) : String :=
  String.mk (s.data.map Char.toLower)

def isJsSpace (c : Char) : Bool :=
  c == ' ' || c == '\t' || c == '\n' || c == '\r'

/-- JS `String.prototype.trim`. -/
def strTrim (s : String) : String :=
  String.mk (((s.data.dropWhile isJsSpace).reverse.dropWhile isJsSpace).reverse)

/-- script.js `getFilename`: last path segment after splitting on `\` then `/`;
falsy paths (null / empty string) display as "Untitled". -/
def lastSegment (sep : Char) (l : List Char) : List Char :=
  (splitOnChar sep l).getLastD []

def getFilename : Option String → String
  | none => "Untitled"
  | some s => if s = "" then "Untitled"
      else String.mk (lastSegment '/' (lastSegment '\\' s.data))

/-! ## File history (script.js lines 1487-1517)

The persisted copy (`localStorage['lightpad-history']`) is modelled by the
`stored` field; `saveFileHistory` copies the in-memory list into it. -/

structure HistoryState where
  fileHistory : List String
  stored : List String
  deriving Repr, DecidableEq

def saveFileHistory (h : HistoryState) : HistoryState :=
  { h with stored := h.fileHistory }

/-- script.js `addToFileHistory(path)`.  The argument is `none` for a JS
null/undefined; the JS falsy guard `if (!path) return` also catches `""`. -/
def addToFileHistory (path : Option String) (h : HistoryState) : HistoryState :=
  match path with
  | none => h
  | some p =>
    if p = "" then h
    else
      let fh := h.fileHistory.filter (fun q => q != p)
      let fh := p :: fh
      let fh := if fh.length > 50 then fh.take 50 else fh
      saveFileHistory { h with fileHistory := fh }

def removeFromFileHistory (path : String) (h : HistoryState) : HistoryState :=
  saveFileHistory { h with fileHistory := h.fileHistory.filter (fun q => q != path) }

/-! ## Pane registry (src/unnamed/part_001, panes.js) -/

structure PaneState where
  tabs : List CTab
  activeTabId : Option String
  deriving Repr, DecidableEq

/-- panes.js `registerTab(tab)`: push if the id is absent, then make active. -/
def registerTab (st : PaneState) (tab : CTab) : PaneState :=
  let tabs := if st.tabs.any (fun t => t.id == tab.id) then st.tabs else st.tabs ++ [tab]
  { tabs := tabs, activeTabId := some tab.id }

/-- panes.js `unregisterTab(tabId)`: splice the tab out; if it was active,
fall back to `tabs[max(0, idx-1)]?.id ?? tabs[0]?.id ?? null` (indices taken
in the list after removal). -/
def unregisterTab (st : PaneState) (tabId : String) : PaneState :=
  match st.tabs.findIdx? (fun t => t.id == tabId) with
  | none => st
  | some idx =>
    let tabs := st.tabs.eraseIdx idx
    let active :=
      if st.activeTabId = some tabId then
        match tabs[idx - 1]? with
        | some t => some t.id
        | none =>
          match tabs[0]? with
          | some t => some t.id
          | none => none
      else st.activeTabId
    { tabs := tabs, activeTabId := active }

/-- panes.js `moveTabToIndex(tabId, targetIndex)`.  JS `splice` clamps an
insertion index beyond the end to the end, hence the `min` on insertion. -/
def moveTabToIndex (tabs : List CTab) (tabId : String) (targetIndex : Nat) : List CTab :=
  match tabs.findIdx? (fun t => t.id == tabId) with
  | none => tabs
  | some fromIdx =>
    if fromIdx = targetIndex ∨ fromIdx + 1 = targetIndex then tabs
    else
      match tabs[fromIdx]? with
      | none => tabs
      | some movedTab =>
        let rest := tabs.eraseIdx fromIdx
        let adjustedIndex := if targetIndex > fromIdx then targetIndex - 1 else targetIndex
        rest.insertIdx (min adjustedIndex rest.length) movedTab

/-- A finite sequence of registry mutations, as quantified over by the
active-pointer invariant. -/
inductive RegOp where
  | register (tab : CTab)
  | unregister (id : String)
  deriving Repr

def applyRegOp (st : PaneState) : RegOp → PaneState
  | RegOp.register t => registerTab st t
  | RegOp.unregister i => unregisterTab st i

/-- panes.js module initialisation: `tabs = []`, `activeTabId = null`. -/
def initialPaneState : PaneState :=
  { tabs := [], activeTabId := none }

def runRegOps (ops : List RegOp) : PaneState :=
  ops.foldl applyRegOp initialPaneState

/-- The invariant: the active pointer is null or names a registered tab. -/
def activeValid (st : PaneState) : Prop :=
  st.activeTabId = none ∨ ∃ t ∈ st.tabs, some t.id = st.activeTabId

/-! ## Quick-open search (script.js `renderQuickOpenResults`, lines 1407-1435) -/

structure QOMatch where
  path : String
  score : Int
  deriving Repr, DecidableEq

/-- One step of the stable comparator sort `(a, b) => b.score - a.score`:
insert `x` in front of the first element with a strictly smaller score, so
that elements with equal score keep their original relative order. -/
def insertByScoreDesc (x : QOMatch) : List QOMatch → List QOMatch
  | [] => [x]
  | y :: ys => if x.score ≥ y.score then x :: y :: ys else y :: insertByScoreDesc x ys

/-- JS `Array.prototype.sort` with comparator `(a, b) => b.score - a.score`
(stable, as guaranteed by the ECMAScript specification). -/
def sortByScoreDesc : List QOMatch → List QOMatch
  | [] => []
  | x :: xs => insertByScoreDesc x (sortByScoreDesc xs)

/-- Per-path score in `renderQuickOpenResults`: 10 for a (case-insensitive)
filename hit, else 5 for a full-path hit, else -1. -/
def quickOpenScore (query : String) (path : String) : Int :=
  let filename := strToLower (getFilename (some path))
  let lowerPath := strToLower path
  if strIncludes filename query then 10
  else if strIncludes lowerPath query then 5
  else -1

/-- The match list computed by `renderQuickOpenResults` from the raw input
value and the file history. -/
def quickOpenMatches (rawQuery : String) (fileHistory : List String) : List QOMatch :=
  let query := strToLower rawQuery
  if query = "" then fileHistory.map (fun p => ⟨p, 0⟩)
  else
    sortByScoreDesc
      ((fileHistory.map (fun p => ⟨p, quickOpenScore query p⟩)).filter (fun m => m.score > 0))

/-- Declarative ranking following the specification's words: the filename
matches in MRU order, each with score 10, followed by the path-only matches
in MRU order, each with score 5; all other paths excluded. -/
def quickOpenRanked (rawQuery : String) (fileHistory : List String) : List QOMatch :=
  let query := strToLower rawQuery
  (fileHistory.filter (fun p => strIncludes (strToLower (getFilename (some p))) query)).map
      (fun p => (⟨p, 10⟩ : QOMatch))
    ++ (fileHistory.filter (fun p =>
          !(strIncludes (strToLower (getFilename (some p))) query)
            && strIncludes (strToLower p) query)).map (fun p => (⟨p, 5⟩ : QOMatch))

/-! ## Session persistence (script.js `saveSession` lines 102-145 and
`loadSession` lines 147-242) -/

/-- The in-memory workspace as far as the session claims observe it:
the tab list, the active tab pointer and the editor cursor offset
(`editorView.state.selection.main.head`, meaningful when the active tab is a
plain-text/checklist tab). -/
structure Workspace where
  tabs : List CTab
  activeTabId : Option String
  cursorPos : Nat
  deriving Repr, DecidableEq

/-- One serialized tab entry of the session blob. -/
structure STab where
  id : String
  path : Option String
  title : String
  isUnsaved : Bool
  isTodo : Bool
  isDoc : Bool
  content : Option String
  deriving Repr, DecidableEq

structure Session where
  tabs : List STab
  activeTabId : Option String
  cursorPos : Nat
  deriving Repr, DecidableEq

/-- The per-tab body of the `tabs.map` in `saveSession`.  For a `.doc` tab the
serialized content is the live Quill HTML when the tab is active, else its
`savedContent` snapshot; for an editor tab it is the CodeMirror document
(`doc` covers both the active `editorView` and the stored `tab.state`).
Content is embedded only when the tab is dirty or has no backing path. -/
def sessionTabOf (activeTabId : Option String) (activeDocContent : Option String)
    (t : CTab) : STab :=
  let content : Option String :=
    if t.isDoc then
      if some t.id = activeTabId ∧ activeDocContent ≠ none then activeDocContent
      else t.savedContent
    else some t.doc
  { id := t.id, path := t.path, title := t.title, isUnsaved := t.isUnsaved,
    isTodo := t.isTodo, isDoc := t.isDoc,
    content := if t.isUnsaved || t.path = none then content else none }

/-- `saveSession`'s `activeTab` lookup (`tabs.find(t => t.id === activeTabId)`). -/
def saveSessionActiveTab (w : Workspace) : Option CTab :=
  w.tabs.find? (fun t => some t.id == w.activeTabId)

/-- `saveSession`'s `activeDocContent`: the live Quill HTML when the active
tab is a `.doc` tab (and a Quill view exists), else null. -/
def saveSessionAdc (w : Workspace) : Option String :=
  match saveSessionActiveTab w with
  | some t => if t.isDoc then some t.doc else none
  | none => none

/-- script.js `saveSession`.  The stored cursor is the editor selection head
when the active tab is an editor tab (`editorView && !activeTab?.isDoc`),
else 0.  (The function also refreshes the active `.doc` tab's `savedContent`
from the live Quill HTML before mapping; since the map then uses that same
live value for this tab and `savedContent` itself is not serialized, the
refresh does not affect the produced session blob.) -/
def saveSession (w : Workspace) : Session :=
  { tabs := w.tabs.map (sessionTabOf w.activeTabId (saveSessionAdc w)),
    activeTabId := w.activeTabId,
    cursorPos :=
      match saveSessionActiveTab w with
      | some t => if t.isDoc then 0 else w.cursorPos
      | none => 0 }

/-- The restore filter in `loadSession`:
`t.path !== null || (t.content !== "" && t.content !== null)`. -/
def keepSessionTab (t : STab) : Bool :=
  !t.path.isNone || (!(t.content == some "") && !t.content.isNone)

/-- Intermediate result of the content-resolution chain in the `loadSession`
loop: the resolved content, the `savedContent` baseline and the (possibly
degraded) dirty flag. -/
structure RestoreStep where
  content : Option String
  savedContent : Option String
  isUnsaved : Bool
  deriving Repr, DecidableEq

/-- The if/else-if chain of `loadSession` (lines 166-190): read the backing
file when no content was embedded (falling back to empty content plus a
forced dirty flag when the read fails), re-read the baseline for dirty
backed tabs, and synthesize baselines for untitled tabs. -/
def restoreStep (fs : String → Option String) (t : STab) : RestoreStep :=
  match t.path, t.content with
  | some p, none =>
    match fs p with
    | some c => ⟨some c, some c, t.isUnsaved⟩
    | none => ⟨some "", none, true⟩
  | some p, some c =>
    if t.isUnsaved then ⟨some c, fs p, t.isUnsaved⟩
    else ⟨some c, none, t.isUnsaved⟩
  | none, c =>
    if t.isDoc then ⟨some (c.getD ""), some (c.getD ""), t.isUnsaved⟩
    else if !t.isUnsaved then ⟨c, some (c.getD ""), t.isUnsaved⟩
    else ⟨c, none, t.isUnsaved⟩

/-- Rebuild one tab record in the `loadSession` loop (the CodeMirror state is
created from `content || ''`, which becomes the tab's live `doc`). -/
def restoreTab (fs : String → Option String) (t : STab) : CTab :=
  let r := restoreStep fs t
  let isTodo := t.isTodo || strEndsWith (t.path.getD "") ".todo"
  let isDoc := t.isDoc || strEndsWith (t.path.getD "") ".doc"
  { id := t.id, path := t.path, title := t.title, isUnsaved := r.isUnsaved,
    isTodo := isTodo, isDoc := isDoc,
    savedContent := r.savedContent, doc := (r.content.getD "") }

def blankTab : CTab :=
  { id := "", path := none, title := "", isUnsaved := false,
    isTodo := false, isDoc := false, savedContent := none, doc := "" }

/-- The observable tab data named by the round-trip claim: id, path, title
and dirty flag (in list order). -/
def tabKey (t : CTab) : String × Option String × String × Bool :=
  (t.id, t.path, t.title, t.isUnsaved)

def sTabKey (st : STab) : String × Option String × String × Bool :=
  (st.id, st.path, st.title, st.isUnsaved)

/-- Length of the restored active document (the bound the stored cursor is
clamped to). -/
def activeDocLength (w : Workspace) : Nat :=
  match w.tabs.find? (fun t => some t.id == w.activeTabId) with
  | some t => t.doc.data.length
  | none => 0

/-- script.js `loadSession`, starting from the empty startup workspace.
(The pruning of dead paths from the file history at line 194 and the
`tabCounter` bump are omitted: they do not touch the workspace fields.)
The cursor is restored by `min(session.cursorPos, doc.length)` when an
editor view exists, i.e. when the tab switched to is not a `.doc` tab;
a falsy stored cursor (0) skips the dispatch and leaves the cursor at 0. -/
def loadSession (fs : String → Option String) (s : Session) : Workspace :=
  let tabsToRestore := s.tabs.filter keepSessionTab
  if tabsToRestore.isEmpty then
    { tabs := [], activeTabId := none, cursorPos := 0 }
  else
    let tabs := tabsToRestore.map (restoreTab fs)
    let active : String :=
      match s.activeTabId with
      | some a => if tabs.any (fun t => t.id == a) then a else (tabs.headD blankTab).id
      | none => (tabs.headD blankTab).id
    let activeTab := tabs.find? (fun t => t.id == active)
    let cursor : Nat :=
      match activeTab with
      | some t => if t.isDoc then 0 else min s.cursorPos t.doc.data.length
      | none => 0
    { tabs := tabs, activeTabId := some active, cursorPos := cursor }

/-! ## Save and close (script.js `saveFile` lines 947-1003 and `closeTab`
lines 813-889) -/

/-- The collaborator environment of a save: what the OS save dialog would
return (`none` = user dismissed it) and whether `writeTextFile` succeeds. -/
structure SaveEnv where
  dialogResult : Option String
  writeOk : Bool
  deriving Repr, DecidableEq

/-- The app-level mutable state touched by save/close: the tab list, the
active pointer and the file history. -/
structure AppState where
  tabs : List CTab
  activeTabId : Option String
  history : HistoryState
  deriving Repr, DecidableEq

structure SaveOut where
  ok : Bool
  state : AppState
  writes : List (String × String)
  deriving Repr, DecidableEq

/-- script.js `saveFile` (desktop path, `returnResult = true`).  The target
path is the tab's backing path, else the OS save-dialog result; a `none`
target (dialog dismissed) reports failure with nothing mutated.  A write
failure raises before any mutation, so the catch also leaves the state
untouched.  On success the found tab object is mutated in place (modelled by
`List.set` at its index) and the path is pushed into the file history. -/
def saveFile (env : SaveEnv) (st : AppState) : SaveOut :=
  match st.tabs.findIdx? (fun t => some t.id == st.activeTabId) with
  | none => ⟨false, st, []⟩
  | some i =>
    match st.tabs[i]? with
    | none => ⟨false, st, []⟩
    | some tab =>
      let pathToSave : Option String :=
        match tab.path with
        | some p => some p
        | none => env.dialogResult
      match pathToSave with
      | none => ⟨false, st, []⟩
      | some p =>
        if env.writeOk then
          let tab' := { tab with
            path := some p, isUnsaved := false, savedContent := some tab.doc }
          ⟨true,
           { tabs := st.tabs.set i tab', activeTabId := st.activeTabId,
             history := addToFileHistory (some p) st.history },
           [(p, tab.doc)]⟩
        else ⟨false, st, []⟩

/-- The four outcomes of the confirmation modal `askConfirmUI`. -/
inductive Answer
  | yes
  | no
  | all
  | cancel
  deriving Repr, DecidableEq

structure CloseEnv where
  answer : Answer
  save : SaveEnv
  deriving Repr, DecidableEq

/-- `closeTab` returns `false` (abort), `'closed'` or `'save_all'`. -/
inductive CloseResult
  | aborted
  | closed
  | saveAll
  deriving Repr, DecidableEq

structure CloseOut where
  result : CloseResult
  prompted : Bool
  state : AppState
  writes : List (String × String)
  closedTab : Option CTab
  deriving Repr, DecidableEq

/-- The tail of `closeTab` (lines 874-888): re-find the index after the
awaits, splice the tab out, and select the fallback active tab
`tabs[Math.max(0, newTabIndex - 1)]` (or no tab when the registry emptied). -/
def closeSplice (res : CloseResult) (prompted : Bool) (writes : List (String × String))
    (id : String) (st : AppState) : CloseOut :=
  match st.tabs.findIdx? (fun t => t.id == id) with
  | none => ⟨CloseResult.aborted, prompted, st, writes, none⟩
  | some i =>
    let removed := st.tabs[i]?
    let tabs := st.tabs.eraseIdx i
    let active : Option String :=
      if tabs.isEmpty then none
      else if st.activeTabId = some id then
        match tabs[i - 1]? with
        | some t => some t.id
        | none => none
      else st.activeTabId
    ⟨res, prompted, { st with tabs := tabs, activeTabId := active }, writes, removed⟩

/-- script.js `closeTab(id, forceClose, multipleFiles)`.  The prompt is
skipped for an untitled tab whose content trims to empty, and for a backed
tab whose file no longer exists or is unreadable (`fs p = none`).  `cancel`
aborts; `yes` and `all` first switch to the tab and save (an aborted or
failed save aborts the close, with the switch already performed); `no`
proceeds to close without saving. -/
def closeTab (env : CloseEnv) (fs : String → Option String) (st : AppState)
    (id : String) (forceClose : Bool) (multipleFiles : Bool) : CloseOut :=
  match st.tabs.findIdx? (fun t => t.id == id) with
  | none => ⟨CloseResult.aborted, false, st, [], none⟩
  | some idx =>
    match st.tabs[idx]? with
    | none => ⟨CloseResult.aborted, false, st, [], none⟩
    | some tab =>
      if tab.isUnsaved then
        let content := tab.doc
        let askPrompt : Bool :=
          match tab.path with
          | none => !(strTrim content == "")
          | some p => (fs p).isSome
        if askPrompt && !forceClose then
          match env.answer with
          | Answer.cancel => ⟨CloseResult.aborted, true, st, [], none⟩
          | Answer.all =>
            let st₁ := { st with activeTabId := some tab.id }
            let s := saveFile env.save st₁
            if s.ok then closeSplice CloseResult.saveAll true s.writes id s.state
            else ⟨CloseResult.aborted, true, s.state, s.writes, none⟩
          | Answer.yes =>
            let st₁ := { st with activeTabId := some tab.id }
            let s := saveFile env.save st₁
            if s.ok then closeSplice CloseResult.closed true s.writes id s.state
            else ⟨CloseResult.aborted, true, s.state, s.writes, none⟩
          | Answer.no => closeSplice CloseResult.closed true [] id st
        else closeSplice CloseResult.closed false [] id st
      else closeSplice CloseResult.closed false [] id st

/-- The dirty-flag recomputation of `createUpdateListener` (lines 244-267):
`isNowUnsaved` is false exactly when a saved baseline exists and the new
document text equals it. -/
def dirtyRecompute (savedContent : Option String) (currentContent : String) : Bool :=
  if savedContent ≠ none ∧ some currentContent = savedContent then false else true

/-- A `docChanged` notification for tab `id` with resulting text `newText`:
the tab's live document and dirty flag are updated in place. -/
def applyDocChange (tabs : List CTab) (id : String) (newText : String) : List CTab :=
  match tabs.findIdx? (fun t => t.id == id) with
  | none => tabs
  | some i =>
    match tabs[i]? with
    | none => tabs
    | some t =>
      tabs.set i { t with doc := newText, isUnsaved := dirtyRecompute t.savedContent newText }

/-- A fresh untitled scratch tab, as produced by `createNewTab(null, '')`. -/
def demoTab (i : String) : CTab :=
  { id := i, path := none, title := "Untitled", isUnsaved := false,
    isTodo := false, isDoc := false, savedContent := some "", doc := "" }

/-- A clean backed tab whose live text equals its last-saved snapshot. -/
def cleanSavedTab : CTab :=
  { id := "tab-1", path := some "/a.txt", title := "Untitled", isUnsaved := false,
    isTodo := false, isDoc := false, savedContent := some "x", doc := "x" }

def cleanState : AppState :=
  { tabs := [cleanSavedTab], activeTabId := some "tab-1", history := ⟨[], []⟩ }

/-- A dirty untitled tab with non-blank content (prompts on close). -/
def scratchDirtyTab : CTab :=
  { id := "tab-2", path := none, title := "Untitled", isUnsaved := true,
    isTodo := false, isDoc := false, savedContent := some "", doc := "draft" }

def scratchDirtyState : AppState :=
  { tabs := [scratchDirtyTab], activeTabId := some "tab-2", history := ⟨[], []⟩ }

/-- Scenario B's tab: `path="notes.todo"` with inserted (unsaved) text. -/
def notesTab : CTab :=
  { id := "tab-3", path := some "notes.todo", title := "Untitled", isUnsaved := true,
    isTodo := true, isDoc := false, savedContent := some "", doc := "buy milk" }

def notesState : AppState :=
  { tabs := [notesTab], activeTabId := some "tab-3", history := ⟨[], []⟩ }

/-- A filesystem on which `notes.todo` exists and is readable. -/
def notesFs : String → Option String :=
  fun q => if q = "notes.todo" then some "" else none

/-- A filesystem with no readable files. -/
def emptyFs : String → Option String :=
  fun _ => none

/-- A filesystem on which only `/a.txt` (content `"x"`) is readable. -/
def roundTripFs : String → Option String :=
  fun q => if q = "/a.txt" then some "x" else none

/-- A workspace with one empty untitled scratch tab (Scenario A's tab). -/
def emptyScratchWorkspace : Workspace :=
  { tabs := [demoTab "tab-1"], activeTabId := some "tab-1", cursorPos := 0 }

/-- A two-tab workspace: a clean backed tab (active) and a dirty untitled
tab with non-empty content; the stored cursor 5 exceeds the reloaded
document length. -/
def roundTripWorkspace : Workspace :=
  { tabs := [cleanSavedTab, scratchDirtyTab], activeTabId := some "tab-1", cursorPos := 5 }

/-! # Helper lemmas -/

theorem mem_eraseIdx_of_ne {α : Type _} :
    ∀ (l : List α) (n : Nat) (t e : α),
      t ∈ l → l[n]? = some e → t ≠ e → t ∈ l.eraseIdx n
  | [], _, _, _, ht, _, _ => by simp at ht
  | x :: xs, 0, t, e, ht, he, hne => by
    simp only [List.getElem?_cons_zero, Option.some.injEq] at he
    subst he
    rcases List.mem_cons.mp ht with h | h
    · exact absurd h hne
    · simpa [List.eraseIdx_cons_zero] using h
  | x :: xs, n + 1, t, e, ht, he, hne => by
    simp only [List.getElem?_cons_succ] at he
    rcases List.mem_cons.mp ht with h | h
    · simp [List.eraseIdx_cons_succ, h]
    · simpa [List.eraseIdx_cons_succ] using
        Or.inr (mem_eraseIdx_of_ne xs n t e h he hne)

theorem insertIdx_eraseIdx_self {α : Type _} :
    ∀ (l : List α) (n : Nat) (a : α),
      l[n]? = some a → (l.eraseIdx n).insertIdx n a = l
  | [], _, _, h => by simp at h
  | x :: xs, 0, a, h => by
    simp only [List.getElem?_cons_zero, Option.some.injEq] at h
    subst h
    simp [List.eraseIdx_cons_zero]
  | x :: xs, n + 1, a, h => by
    simp only [List.getElem?_cons_succ] at h
    simp only [List.eraseIdx_cons_succ, List.insertIdx_succ_cons]
    rw [insertIdx_eraseIdx_self xs n a h]

theorem set_getElem?_self {α : Type _} :
    ∀ (l : List α) (n : Nat) (a : α), l[n]? = some a → l.set n a = l
  | [], _, _, h => by simp at h
  | x :: xs, 0, a, h => by
    simp only [List.getElem?_cons_zero, Option.some.injEq] at h
    subst h
    rfl
  | x :: xs, n + 1, a, h => by
    simp only [List.getElem?_cons_succ] at h
    simp only [List.set_cons_succ]
    rw [set_getElem?_self xs n a h]

theorem eraseIdx_set_self {α : Type _} :
    ∀ (l : List α) (n : Nat) (a : α), (l.set n a).eraseIdx n = l.eraseIdx n
  | [], _, _ => rfl
  | _ :: _, 0, _ => by simp [List.eraseIdx_cons_zero]
  | x :: xs, n + 1, a => by
    simp only [List.set_cons_succ, List.eraseIdx_cons_succ]
    rw [eraseIdx_set_self xs n a]

theorem findIdx?_set_of_eq {α : Type _} (l : List α) (p : α → Bool) (i : Nat) (a : α)
    (h : l.findIdx? p = some i) (ha : p a = true) : (l.set i a).findIdx? p = some i := by
  obtain ⟨hlt, -, hprev⟩ := List.findIdx?_eq_some_iff_getElem.mp h
  refine List.findIdx?_eq_some_iff_getElem.mpr ⟨by simpa using hlt, ?_, ?_⟩
  · rw [List.getElem_set_self]
    exact ha
  · intro j hji
    rw [List.getElem_set_ne (by omega)]
    exact hprev j hji

/-! Field lemmas for the serialize/restore cycle. -/

theorem restoreTab_id (fs : String → Option String) (st : STab) :
    (restoreTab fs st).id = st.id := rfl

theorem restoreTab_path (fs : String → Option String) (st : STab) :
    (restoreTab fs st).path = st.path := rfl

theorem restoreTab_title (fs : String → Option String) (st : STab) :
    (restoreTab fs st).title = st.title := rfl

theorem restoreTab_isDoc (fs : String → Option String) (st : STab) :
    (restoreTab fs st).isDoc = (st.isDoc || strEndsWith (st.path.getD "") ".doc") := rfl

/-- When the backing file (if any) is readable, restoring a serialized tab
preserves its dirty flag (the only field the resolution chain can degrade). -/
theorem restoreTab_isUnsaved (fs : String → Option String) (st : STab)
    (hfs : ∀ p, st.path = some p → (fs p).isSome = true) :
    (restoreTab fs st).isUnsaved = st.isUnsaved := by
  cases hpath : st.path with
  | some p =>
    obtain ⟨c, hc⟩ := Option.isSome_iff_exists.mp (hfs p hpath)
    cases hcont : st.content with
    | none => simp [restoreTab, restoreStep, hpath, hcont, hc]
    | some c2 =>
      simp only [restoreTab, restoreStep, hpath, hcont]
      split <;> rfl
  | none =>
    cases hcont : st.content with
    | none =>
      simp only [restoreTab, restoreStep, hpath, hcont]
      split
      · rfl
      · split <;> rfl
    | some c2 =>
      simp only [restoreTab, restoreStep, hpath, hcont]
      split
      · rfl
      · split <;> rfl

theorem sessionTabOf_path (act adc : Option String) (t : CTab) :
    (sessionTabOf act adc t).path = t.path := rfl

theorem sessionTabOf_key (act adc : Option String) (t : CTab) :
    sTabKey (sessionTabOf act adc t) = tabKey t := rfl

theorem restoreTab_key (fs : String → Option String) (st : STab)
    (hfs : ∀ p, st.path = some p → (fs p).isSome = true) :
    tabKey (restoreTab fs st) = sTabKey st := by
  unfold tabKey sTabKey
  rw [restoreTab_id, restoreTab_path, restoreTab_title, restoreTab_isUnsaved fs st hfs]

theorem activeDocLength_mk (tabs2 : List CTab) (b : String) (c : Nat) :
    activeDocLength ⟨tabs2, some b, c⟩
      = (match tabs2.find? (fun t => t.id == b) with
         | some t => t.doc.data.length
         | none => 0) := by
  unfold activeDocLength
  have h : (fun t : CTab => some t.id == (some b : Option String))
      = (fun t : CTab => t.id == b) := funext fun t => rfl
  rw [h]

/-! # Claim theorems -/

/-- C5: moving the tab found at `fromIdx` to raw target index `targetIndex`
removes it and reinserts it at `targetIndex - 1` when `targetIndex > fromIdx`
(compensating for the left shift caused by the removal) and at `targetIndex`
otherwise. -/
theorem moveTabToIndex_adjusts_for_removal (tabs : List CTab) (tabId : String)
    (targetIndex fromIdx : Nat) (movedTab : CTab)
    (hfind : tabs.findIdx? (fun t => t.id == tabId) = some fromIdx)
    (hget : tabs[fromIdx]? = some movedTab)
    (hle : targetIndex ≤ tabs.length) :
    moveTabToIndex tabs tabId targetIndex
      = (tabs.eraseIdx fromIdx).insertIdx
          (if targetIndex > fromIdx then targetIndex - 1 else targetIndex) movedTab := by
  obtain ⟨hlt, -⟩ := List.getElem?_eq_some_iff.mp hget
  simp only [moveTabToIndex, hfind, hget]
  have hrest : (tabs.eraseIdx fromIdx).length = tabs.length - 1 := by
    rw [List.length_eraseIdx]
    simp [hlt]
  by_cases hguard : fromIdx = targetIndex ∨ fromIdx + 1 = targetIndex
  · rw [if_pos hguard]
    rcases hguard with h | h
    · subst h
      rw [if_neg (lt_irrefl fromIdx), insertIdx_eraseIdx_self tabs fromIdx movedTab hget]
    · subst h
      rw [if_pos (Nat.lt_succ_self fromIdx)]
      simpa using (insertIdx_eraseIdx_self tabs fromIdx movedTab hget).symm
  · rw [if_neg hguard]
    have hadj : (if targetIndex > fromIdx then targetIndex - 1 else targetIndex)
        ≤ (tabs.eraseIdx fromIdx).length := by
      rw [hrest]
      by_cases hgt : targetIndex > fromIdx
      · simp only [hgt, if_pos]
        omega
      · simp only [hgt, if_neg, ite_false]
        omega
    rw [min_eq_left hadj]

/-- Witness for C5, instantiating Scenario E: dragging the tab at index 0 to
a pointer position past index 2's midpoint produces the raw target index 3,
and the move places it at final index 2 (not 3). -/
theorem moveTabToIndex_adjusts_for_removal_witness :
    moveTabToIndex [demoTab "t0", demoTab "t1", demoTab "t2", demoTab "t3"] "t0" 3
        = [demoTab "t1", demoTab "t2", demoTab "t0", demoTab "t3"]
      ∧ [demoTab "t1", demoTab "t2", demoTab "t0", demoTab "t3"].findIdx?
          (fun t => t.id == "t0") = some 2 := by
  constructor
  · have h := moveTabToIndex_adjusts_for_removal
      [demoTab "t0", demoTab "t1", demoTab "t2", demoTab "t3"] "t0" 3 0 (demoTab "t0")
      (by decide) (by decide) (by decide)
    simpa using h
  · decide

/-- The active pointer stays valid across `registerTab`. -/
theorem activeValid_registerTab (st : PaneState) (tab : CTab) :
    activeValid (registerTab st tab) := by
  unfold registerTab activeValid
  by_cases h : st.tabs.any (fun t => t.id == tab.id)
  · obtain ⟨t, ht, hid⟩ := List.any_eq_true.mp h
    right
    refine ⟨t, by simpa [h] using ht, ?_⟩
    simpa using (beq_iff_eq.mp hid)
  · right
    exact ⟨tab, by simp [h], rfl⟩

/-- The active pointer stays valid across `unregisterTab`. -/
theorem activeValid_unregisterTab (st : PaneState) (tabId : String)
    (h : activeValid st) : activeValid (unregisterTab st tabId) := by
  unfold unregisterTab
  cases hfind : st.tabs.findIdx? (fun t => t.id == tabId) with
  | none => exact h
  | some idx =>
    obtain ⟨hlt, hpred, -⟩ := List.findIdx?_eq_some_iff_getElem.mp hfind
    simp only
    by_cases hact : st.activeTabId = some tabId
    · rw [if_pos hact]
      cases h1 : (st.tabs.eraseIdx idx)[idx - 1]? with
      | some t =>
        right
        obtain ⟨hlt1, heq1⟩ := List.getElem?_eq_some_iff.mp h1
        exact ⟨t, heq1 ▸ List.getElem_mem hlt1, rfl⟩
      | none =>
        cases h2 : (st.tabs.eraseIdx idx)[0]? with
        | some t =>
          right
          obtain ⟨hlt2, heq2⟩ := List.getElem?_eq_some_iff.mp h2
          exact ⟨t, heq2 ▸ List.getElem_mem hlt2, rfl⟩
        | none => left; rfl
    · rw [if_neg hact]
      rcases h with hnone | ⟨t, ht, hid⟩
      · left; exact hnone
      · right
        refine ⟨t, mem_eraseIdx_of_ne st.tabs idx t (st.tabs[idx]) ht
          (List.getElem?_eq_some_iff.mpr ⟨hlt, rfl⟩) ?_, hid⟩
        intro hte
        apply hact
        rw [← hid, hte]
        congr 1
        exact beq_iff_eq.mp hpred

/-- C6: after every finite sequence of `registerTab`/`unregisterTab`
operations starting from the empty registry, the active-tab pointer is
either null or the id of a tab present in the registry. -/
theorem registry_active_pointer_valid (ops : List RegOp) :
    activeValid (runRegOps ops) := by
  have general : ∀ (ops : List RegOp) (st : PaneState),
      activeValid st → activeValid (ops.foldl applyRegOp st) := by
    intro ops
    induction ops with
    | nil => intro st h; exact h
    | cons op rest ih =>
      intro st h
      apply ih
      cases op with
      | register tab => exact activeValid_registerTab st tab
      | unregister i => exact activeValid_unregisterTab st i h
  exact general ops initialPaneState (Or.inl rfl)

/-- C8: `addToFileHistory` with a non-empty path removes existing occurrences,
prepends, truncates to 50 entries, and persists the result. -/
theorem addToFileHistory_mru (p : String) (h : HistoryState) (hp : p ≠ "") :
    (addToFileHistory (some p) h).fileHistory
        = ((p :: h.fileHistory.filter (fun q => q != p)).take 50)
      ∧ (addToFileHistory (some p) h).stored
        = ((p :: h.fileHistory.filter (fun q => q != p)).take 50) := by
  simp only [addToFileHistory, saveFileHistory]
  rw [if_neg hp]
  by_cases hlen : (p :: h.fileHistory.filter (fun q => q != p)).length > 50
  · simp [hlen]
  · simp only [hlen, ite_false]
    rw [List.take_of_length_le (by omega)]
    exact ⟨rfl, rfl⟩

/-- Witness for C8, instantiating Scenario C:
starting from `["/a","/b","/c"]`, `add("/b")` yields `["/b","/a","/c"]`. -/
theorem addToFileHistory_mru_witness :
    (addToFileHistory (some "/b") ⟨["/a", "/b", "/c"], ["/a", "/b", "/c"]⟩).fileHistory
        = (("/b" : String) :: (["/a", "/b", "/c"] : List String).filter
            (fun q => q != "/b")).take 50
      ∧ (addToFileHistory (some "/b") ⟨["/a", "/b", "/c"], ["/a", "/b", "/c"]⟩).fileHistory
        = ["/b", "/a", "/c"] := by
  refine ⟨(addToFileHistory_mru "/b" ⟨["/a", "/b", "/c"], ["/a", "/b", "/c"]⟩
    (by decide)).1, by decide⟩

/-- C10: `addToFileHistory` with a falsy path (null/undefined, modelled as
`none`, or the empty string) leaves both the in-memory list and the persisted
copy unchanged. -/
theorem addToFileHistory_falsy_noop (h : HistoryState) :
    addToFileHistory none h = h ∧ addToFileHistory (some "") h = h := by
  constructor
  · rfl
  · simp [addToFileHistory]

/-- C4: for a plain-text/checklist tab, a `docChanged` notification whose
resulting text differs from `savedContent` sets `isUnsaved := true`, one whose
resulting text equals `savedContent` sets it back to `false`, and so does a
successful save. -/
theorem updateListener_dirty_tracking (tabs : List CTab) (id newText : String)
    (i : Nat) (t : CTab)
    (hfind : tabs.findIdx? (fun u => u.id == id) = some i)
    (hget : tabs[i]? = some t) :
    (some newText ≠ t.savedContent →
        ((applyDocChange tabs id newText)[i]?).map CTab.isUnsaved = some true)
    ∧ (t.savedContent = some newText →
        ((applyDocChange tabs id newText)[i]?).map CTab.isUnsaved = some false)
    ∧ (∀ (env : SaveEnv) (st : AppState) (j : Nat),
        st.tabs.findIdx? (fun u => some u.id == st.activeTabId) = some j →
        (saveFile env st).ok = true →
        ((saveFile env st).state.tabs[j]?).map CTab.isUnsaved = some false) := by
  obtain ⟨hlt, -⟩ := List.getElem?_eq_some_iff.mp hget
  have hmain : (applyDocChange tabs id newText)[i]?
      = some { t with doc := newText, isUnsaved := dirtyRecompute t.savedContent newText } := by
    simp only [applyDocChange, hfind, hget]
    exact List.getElem?_set_self hlt
  refine ⟨?_, ?_, ?_⟩
  · intro hne
    rw [hmain]
    simp only [Option.map_some']
    congr 1
    unfold dirtyRecompute
    rw [if_neg]
    rintro ⟨-, h2⟩
    exact hne h2
  · intro heq
    rw [hmain]
    simp only [Option.map_some']
    congr 1
    unfold dirtyRecompute
    rw [if_pos ⟨by rw [heq]; exact Option.some_ne_none newText, heq.symm⟩]
  · intro env st j hj hok
    obtain ⟨hjlt, -, -⟩ := List.findIdx?_eq_some_iff_getElem.mp hj
    have hjt : st.tabs[j]? = some st.tabs[j] := List.getElem?_eq_some_iff.mpr ⟨hjlt, rfl⟩
    simp only [saveFile, hj, hjt] at hok ⊢
    cases hp : st.tabs[j].path with
    | none =>
      cases hd : env.dialogResult with
      | none => simp [hp, hd] at hok
      | some p =>
        cases hw : env.writeOk with
        | false => simp [hp, hd, hw] at hok
        | true =>
          simp only [hp, hd, hw, if_true]
          rw [List.getElem?_set_self hjlt]
          rfl
    | some p =>
      cases hw : env.writeOk with
      | false => simp [hp, hw] at hok
      | true =>
        simp only [hp, hw, if_true]
        rw [List.getElem?_set_self hjlt]
        rfl

/-- Witness for C4 on a concrete tab (baseline `"x"`): editing to `"xy"`
turns the dirty flag on, editing back to `"x"` turns it off, and a
successful save leaves the active tab clean. -/
theorem updateListener_dirty_tracking_witness :
    ((applyDocChange [cleanSavedTab] "tab-1" "xy")[0]?).map CTab.isUnsaved = some true
    ∧ ((applyDocChange [cleanSavedTab] "tab-1" "x")[0]?).map CTab.isUnsaved = some false
    ∧ ((saveFile ⟨none, true⟩ cleanState).state.tabs[0]?).map CTab.isUnsaved = some false := by
  refine ⟨?_, ?_, ?_⟩
  · exact (updateListener_dirty_tracking [cleanSavedTab] "tab-1" "xy" 0 cleanSavedTab
      (by decide) (by decide)).1 (by decide)
  · exact (updateListener_dirty_tracking [cleanSavedTab] "tab-1" "x" 0 cleanSavedTab
      (by decide) (by decide)).2.1 (by decide)
  · exact (updateListener_dirty_tracking [cleanSavedTab] "tab-1" "x" 0 cleanSavedTab
      (by decide) (by decide)).2.2 ⟨none, true⟩ cleanState 0 (by decide) (by decide)

/-- C3 counterexample: saving an already-clean backed tab a second time in a
row still performs a filesystem write — `saveFile` writes unconditionally, so
the second invocation writes `/a.txt` again instead of performing no write. -/
theorem saveFile_clean_second_write :
    (saveFile ⟨none, true⟩ (saveFile ⟨none, true⟩ cleanState).state).writes
        = [("/a.txt", "x")]
    ∧ (saveFile ⟨none, true⟩ (saveFile ⟨none, true⟩ cleanState).state).writes ≠ [] := by
  decide

/-- C3 (amended): invoking save twice on a clean backed tab leaves the tab
state unchanged and clean (`isUnsaved = false`), but each invocation performs
a write of the same content rather than skipping the write. -/
theorem saveFile_clean_twice (env : SaveEnv) (st : AppState)
    (i : Nat) (tab : CTab) (p : String)
    (hfind : st.tabs.findIdx? (fun u => some u.id == st.activeTabId) = some i)
    (hget : st.tabs[i]? = some tab)
    (hclean : tab.isUnsaved = false)
    (hpath : tab.path = some p)
    (hbase : tab.savedContent = some tab.doc)
    (hw : env.writeOk = true) :
    (saveFile env st).ok = true
    ∧ (saveFile env st).writes = [(p, tab.doc)]
    ∧ (saveFile env st).state.tabs = st.tabs
    ∧ (saveFile env (saveFile env st).state).writes = [(p, tab.doc)]
    ∧ ((saveFile env (saveFile env st).state).state.tabs[i]?).map CTab.isUnsaved
        = some false := by
  have htab' : { tab with path := some p, isUnsaved := false, savedContent := some tab.doc }
      = tab := by
    cases tab
    simp_all
  have hset : st.tabs.set i { tab with
      path := some p, isUnsaved := false, savedContent := some tab.doc } = st.tabs := by
    rw [htab']
    exact set_getElem?_self st.tabs i tab hget
  have hfirst : saveFile env st
      = ⟨true,
         { tabs := st.tabs, activeTabId := st.activeTabId,
           history := addToFileHistory (some p) st.history },
         [(p, tab.doc)]⟩ := by
    simp only [saveFile, hfind, hget, hpath, hw, if_true, hset]
  have hsecond : saveFile env (saveFile env st).state
      = ⟨true,
         { tabs := st.tabs, activeTabId := st.activeTabId,
           history := addToFileHistory (some p) (addToFileHistory (some p) st.history) },
         [(p, tab.doc)]⟩ := by
    rw [hfirst]
    simp only [saveFile, hfind, hget, hpath, hw, if_true, hset]
  refine ⟨by rw [hfirst], by rw [hfirst], by rw [hfirst], by rw [hsecond], ?_⟩
  rw [hsecond]
  simp only [hget, Option.map_some']
  rw [hclean]

/-- Witness for C3's amended statement at the concrete clean tab. -/
theorem saveFile_clean_twice_witness :
    (saveFile ⟨none, true⟩ cleanState).ok = true
    ∧ (saveFile ⟨none, true⟩ cleanState).writes = [("/a.txt", "x")]
    ∧ (saveFile ⟨none, true⟩ (saveFile ⟨none, true⟩ cleanState).state).writes
        = [("/a.txt", "x")]
    ∧ ((saveFile ⟨none, true⟩ (saveFile ⟨none, true⟩ cleanState).state).state.tabs[0]?).map
        CTab.isUnsaved = some false := by
  have h := saveFile_clean_twice ⟨none, true⟩ cleanState 0 cleanSavedTab "/a.txt"
    (by decide) (by decide) (by decide) (by decide) (by decide) (by decide)
  exact ⟨h.1, h.2.1, h.2.2.2.1, h.2.2.2.2⟩

/-- C9: closing a dirty untitled tab with non-blank content prompts; on `Yes`
with the OS save dialog dismissed, the save reports failure without writing
and without mutating the tab, and the close aborts, leaving the tab (with all
its fields unchanged) in the registry. -/
theorem close_aborts_on_cancelled_save_dialog (env : CloseEnv)
    (fs : String → Option String) (st : AppState) (id : String)
    (idx : Nat) (tab : CTab)
    (hfind : st.tabs.findIdx? (fun t => t.id == id) = some idx)
    (hget : st.tabs[idx]? = some tab)
    (hdirty : tab.isUnsaved = true)
    (hpath : tab.path = none)
    (hcontent : strTrim tab.doc ≠ "")
    (hanswer : env.answer = Answer.yes)
    (hdialog : env.save.dialogResult = none) :
    (closeTab env fs st id false false).result = CloseResult.aborted
    ∧ (closeTab env fs st id false false).prompted = true
    ∧ (closeTab env fs st id false false).writes = []
    ∧ (closeTab env fs st id false false).state.tabs = st.tabs
    ∧ (closeTab env fs st id false false).state.tabs[idx]? = some tab := by
  obtain ⟨hidlt, hpred, -⟩ := List.findIdx?_eq_some_iff_getElem.mp hfind
  obtain ⟨hidlt2, hgeteq⟩ := List.getElem?_eq_some_iff.mp hget
  have htabid : tab.id = id := beq_iff_eq.mp (by rw [hgeteq] at hpred; exact hpred)
  have hpredfun : (fun u : CTab => some u.id == some tab.id) = (fun u : CTab => u.id == id) := by
    funext u
    rw [htabid]
    rfl
  have hfind' : st.tabs.findIdx? (fun u => some u.id == some tab.id) = some idx := by
    rw [hpredfun]
    exact hfind
  have hbeq : (strTrim tab.doc == "") = false := beq_eq_false_iff_ne.mpr hcontent
  have hsave : saveFile env.save { st with activeTabId := some tab.id }
      = ⟨false, { st with activeTabId := some tab.id }, []⟩ := by
    simp only [saveFile, hfind', hget, hpath, hdialog]
  have hclose : closeTab env fs st id false false
      = ⟨CloseResult.aborted, true, { st with activeTabId := some tab.id }, [], none⟩ := by
    simp [closeTab, hfind, hget, hdirty, hpath, hbeq, hanswer, hsave]
  rw [hclose]
  exact ⟨rfl, rfl, rfl, rfl, hget⟩

/-- Witness for C9 at a concrete dirty untitled tab with a dismissed dialog. -/
theorem close_aborts_on_cancelled_save_dialog_witness :
    (closeTab ⟨Answer.yes, ⟨none, true⟩⟩ notesFs scratchDirtyState "tab-2" false false).result
        = CloseResult.aborted
    ∧ (closeTab ⟨Answer.yes, ⟨none, true⟩⟩ notesFs scratchDirtyState "tab-2" false
        false).writes = []
    ∧ (closeTab ⟨Answer.yes, ⟨none, true⟩⟩ notesFs scratchDirtyState "tab-2" false
        false).state.tabs = scratchDirtyState.tabs := by
  have h := close_aborts_on_cancelled_save_dialog ⟨Answer.yes, ⟨none, true⟩⟩ notesFs
    scratchDirtyState "tab-2" 0 scratchDirtyTab (by decide) (by decide) (by decide)
    (by decide) (by decide) (by decide) (by decide)
  exact ⟨h.1, h.2.2.1, h.2.2.2.1⟩

/-- C1 counterexample: a dirty tab backed by a readable `notes.todo`; the
prompt is shown and the answer `No` does not abort the close — the tab is
removed from the registry without any save, contradicting the claim that `No`
leaves the tab present with its dirty flag set. -/
theorem closeTab_answer_no_closes :
    (closeTab ⟨Answer.no, ⟨none, true⟩⟩ notesFs notesState "tab-3" false false).prompted
        = true
    ∧ (closeTab ⟨Answer.no, ⟨none, true⟩⟩ notesFs notesState "tab-3" false false).result
        = CloseResult.closed
    ∧ (closeTab ⟨Answer.no, ⟨none, true⟩⟩ notesFs notesState "tab-3" false false).state.tabs
        = []
    ∧ (closeTab ⟨Answer.no, ⟨none, true⟩⟩ notesFs notesState "tab-3" false false).writes
        = [] := by
  decide

/-- C1 (amended): closing a dirty tab whose backing file exists and is
readable shows the save-confirmation prompt; answering `Cancel` aborts the
close, leaving the state (tab present, dirty flag set) untouched; answering
`Yes` with a successful save writes the tab's content, clears the dirty flag
on the closed tab, and removes it from the registry.  (Answering `No` closes
without saving — see the counterexample.) -/
theorem closeTab_dirty_backed_prompt (env : CloseEnv) (fs : String → Option String)
    (st : AppState) (id : String) (idx : Nat) (tab : CTab) (p : String)
    (hfind : st.tabs.findIdx? (fun t => t.id == id) = some idx)
    (hget : st.tabs[idx]? = some tab)
    (hdirty : tab.isUnsaved = true)
    (hpath : tab.path = some p)
    (hfs : (fs p).isSome = true) :
    (closeTab env fs st id false false).prompted = true
    ∧ (env.answer = Answer.cancel →
        (closeTab env fs st id false false).result = CloseResult.aborted
        ∧ (closeTab env fs st id false false).state = st)
    ∧ (env.answer = Answer.yes → env.save.writeOk = true →
        (closeTab env fs st id false false).result = CloseResult.closed
        ∧ (closeTab env fs st id false false).writes = [(p, tab.doc)]
        ∧ ((closeTab env fs st id false false).closedTab).map CTab.isUnsaved = some false
        ∧ (closeTab env fs st id false false).state.tabs = st.tabs.eraseIdx idx) := by
  obtain ⟨hidlt, hpred, -⟩ := List.findIdx?_eq_some_iff_getElem.mp hfind
  obtain ⟨hidlt2, hgeteq⟩ := List.getElem?_eq_some_iff.mp hget
  have htabid : tab.id = id := beq_iff_eq.mp (by rw [hgeteq] at hpred; exact hpred)
  have hpredfun : (fun u : CTab => some u.id == some tab.id) = (fun u : CTab => u.id == id) := by
    funext u
    rw [htabid]
    rfl
  have hfind' : st.tabs.findIdx? (fun u => some u.id == some tab.id) = some idx := by
    rw [hpredfun]
    exact hfind
  refine ⟨?_, ?_, ?_⟩
  · cases hans : env.answer with
    | cancel => simp [closeTab, hfind, hget, hdirty, hpath, hfs, hans]
    | yes =>
      simp only [closeTab, hfind, hget, hdirty, hpath, hfs, Bool.not_false,
        Bool.and_true, if_true, hans]
      cases hok : (saveFile env.save { st with activeTabId := some tab.id }).ok
      · simp
      · simp only [if_true]
        rw [closeSplice]
        cases hf : (saveFile env.save { st with activeTabId := some tab.id
          }).state.tabs.findIdx? (fun t => t.id == id) <;> simp
    | no =>
      simp only [closeTab, hfind, hget, hdirty, hpath, hfs, Bool.not_false,
        Bool.and_true, if_true, hans]
      rw [closeSplice]
      cases hf : st.tabs.findIdx? (fun t => t.id == id) <;> simp
    | all =>
      simp only [closeTab, hfind, hget, hdirty, hpath, hfs, Bool.not_false,
        Bool.and_true, if_true, hans]
      cases hok : (saveFile env.save { st with activeTabId := some tab.id }).ok
      · simp
      · simp only [if_true]
        rw [closeSplice]
        cases hf : (saveFile env.save { st with activeTabId := some tab.id
          }).state.tabs.findIdx? (fun t => t.id == id) <;> simp
  · intro hans
    have hclose : closeTab env fs st id false false
        = ⟨CloseResult.aborted, true, st, [], none⟩ := by
      simp [closeTab, hfind, hget, hdirty, hpath, hfs, hans]
    rw [hclose]
    exact ⟨rfl, rfl⟩
  · intro hans hw
    have hsave : saveFile env.save { st with activeTabId := some tab.id }
        = ⟨true,
           { tabs := st.tabs.set idx { tab with
               path := some p, isUnsaved := false, savedContent := some tab.doc },
             activeTabId := some tab.id,
             history := addToFileHistory (some p) st.history },
           [(p, tab.doc)]⟩ := by
      simp only [saveFile, hfind', hget, hpath, hw, if_true]
    have hfind₂ : (st.tabs.set idx { tab with
        path := some p, isUnsaved := false, savedContent := some tab.doc }).findIdx?
          (fun t => t.id == id) = some idx := by
      apply findIdx?_set_of_eq st.tabs _ idx _ hfind
      simpa using htabid
    have hget₂ : (st.tabs.set idx { tab with
        path := some p, isUnsaved := false, savedContent := some tab.doc })[idx]?
          = some { tab with
              path := some p, isUnsaved := false, savedContent := some tab.doc } :=
      List.getElem?_set_self hidlt
    have hclose : closeTab env fs st id false false
        = closeSplice CloseResult.closed true [(p, tab.doc)] id
            { tabs := st.tabs.set idx { tab with
                path := some p, isUnsaved := false, savedContent := some tab.doc },
              activeTabId := some tab.id,
              history := addToFileHistory (some p) st.history } := by
      simp only [closeTab, hfind, hget, hdirty, hpath, hfs, Bool.not_false,
        Bool.and_true, if_true, hans, hsave]
    refine ⟨?_, ?_, ?_, ?_⟩
    · rw [hclose]
      simp only [closeSplice, hfind₂]
    · rw [hclose]
      simp only [closeSplice, hfind₂]
    · rw [hclose]
      simp only [closeSplice, hfind₂, hget₂, Option.map_some']
    · rw [hclose]
      simp only [closeSplice, hfind₂]
      rw [eraseIdx_set_self]

theorem insertByScoreDesc_front (x : QOMatch) (l : List QOMatch)
    (h : ∀ y ∈ l, y.score ≤ x.score) : insertByScoreDesc x l = x :: l := by
  cases l with
  | nil => rfl
  | cons y ys =>
    simp only [insertByScoreDesc]
    rw [if_pos (h y (List.mem_cons_self y ys))]

theorem insertByScoreDesc_middle (x : QOMatch) :
    ∀ (a b : List QOMatch), (∀ y ∈ a, x.score < y.score) → (∀ y ∈ b, y.score ≤ x.score) →
      insertByScoreDesc x (a ++ b) = a ++ x :: b
  | [], b, _, hb => by simpa using insertByScoreDesc_front x b hb
  | z :: zs, b, ha, hb => by
    have hz : x.score < z.score := ha z (List.mem_cons_self z zs)
    simp only [List.cons_append, insertByScoreDesc]
    rw [if_neg (not_le.mpr hz)]
    simp only [List.append_eq]
    rw [insertByScoreDesc_middle x zs b (fun y hy => ha y (List.mem_cons_of_mem z hy)) hb]

theorem quickOpen_sort_eq (q : String) :
    ∀ (h : List String),
      sortByScoreDesc ((h.map (fun p => (⟨p, quickOpenScore q p⟩ : QOMatch))).filter
          (fun m => m.score > 0))
        = (h.filter (fun p => strIncludes (strToLower (getFilename (some p))) q)).map
            (fun p => (⟨p, 10⟩ : QOMatch))
          ++ (h.filter (fun p => !(strIncludes (strToLower (getFilename (some p))) q)
                && strIncludes (strToLower p) q)).map (fun p => (⟨p, 5⟩ : QOMatch))
  | [] => rfl
  | p :: t => by
    have ih := quickOpen_sort_eq q t
    have hA : ∀ y ∈ (t.filter (fun u => strIncludes (strToLower (getFilename (some u))) q)).map
        (fun u => (⟨u, 10⟩ : QOMatch)), y.score = 10 := by
      intro y hy
      obtain ⟨z, -, rfl⟩ := List.mem_map.mp hy
      rfl
    have hB : ∀ y ∈ (t.filter (fun u => !(strIncludes (strToLower (getFilename (some u))) q)
        && strIncludes (strToLower u) q)).map (fun u => (⟨u, 5⟩ : QOMatch)), y.score = 5 := by
      intro y hy
      obtain ⟨z, -, rfl⟩ := List.mem_map.mp hy
      rfl
    by_cases hf : strIncludes (strToLower (getFilename (some p))) q = true
    · have hsc : quickOpenScore q p = 10 := by
        simp [quickOpenScore, hf]
      have hcons : ((p :: t).map (fun u => (⟨u, quickOpenScore q u⟩ : QOMatch))).filter
          (fun m => m.score > 0)
        = ⟨p, 10⟩ :: (t.map (fun u => (⟨u, quickOpenScore q u⟩ : QOMatch))).filter
            (fun m => m.score > 0) := by
        simp only [List.map_cons, List.filter_cons, hsc]
        norm_num
      have hble : ∀ y ∈ (t.filter
            (fun u => strIncludes (strToLower (getFilename (some u))) q)).map
              (fun u => (⟨u, 10⟩ : QOMatch))
          ++ (t.filter (fun u => !(strIncludes (strToLower (getFilename (some u))) q)
              && strIncludes (strToLower u) q)).map (fun u => (⟨u, 5⟩ : QOMatch)),
          y.score ≤ (⟨p, 10⟩ : QOMatch).score := by
        intro y hy
        rcases List.mem_append.mp hy with hy | hy
        · have := hA y hy
          simp only [this]
          norm_num
        · have := hB y hy
          simp only [this]
          norm_num
      rw [hcons, sortByScoreDesc, ih, insertByScoreDesc_front _ _ hble]
      simp only [List.filter_cons, hf, if_true, List.map_cons, Bool.not_true,
        Bool.false_and, List.cons_append]
      norm_num
    · have hf' : strIncludes (strToLower (getFilename (some p))) q = false :=
        Bool.eq_false_iff.mpr hf
      by_cases hp : strIncludes (strToLower p) q = true
      · have hsc : quickOpenScore q p = 5 := by
          simp [quickOpenScore, hf', hp]
        have hcons : ((p :: t).map (fun u => (⟨u, quickOpenScore q u⟩ : QOMatch))).filter
            (fun m => m.score > 0)
          = ⟨p, 5⟩ :: (t.map (fun u => (⟨u, quickOpenScore q u⟩ : QOMatch))).filter
              (fun m => m.score > 0) := by
          simp only [List.map_cons, List.filter_cons, hsc]
          norm_num
        have hgtA : ∀ y ∈ (t.filter
              (fun u => strIncludes (strToLower (getFilename (some u))) q)).map
                (fun u => (⟨u, 10⟩ : QOMatch)),
            (⟨p, 5⟩ : QOMatch).score < y.score := by
          intro y hy
          have := hA y hy
          simp only [this]
          norm_num
        have hleB : ∀ y ∈ (t.filter (fun u => !(strIncludes (strToLower (getFilename (some u))) q)
            && strIncludes (strToLower u) q)).map (fun u => (⟨u, 5⟩ : QOMatch)),
            y.score ≤ (⟨p, 5⟩ : QOMatch).score := by
          intro y hy
          have := hB y hy
          simp only [this]
          norm_num
        rw [hcons, sortByScoreDesc, ih, insertByScoreDesc_middle _ _ _ hgtA hleB]
        simp only [List.filter_cons, hf', Bool.false_eq_true, if_false, List.map_cons,
          Bool.not_false, Bool.true_and, hp, if_true]
      · have hp' : strIncludes (strToLower p) q = false := Bool.eq_false_iff.mpr hp
        have hsc : quickOpenScore q p = -1 := by
          simp [quickOpenScore, hf', hp']
        have hcons : ((p :: t).map (fun u => (⟨u, quickOpenScore q u⟩ : QOMatch))).filter
            (fun m => m.score > 0)
          = (t.map (fun u => (⟨u, quickOpenScore q u⟩ : QOMatch))).filter
              (fun m => m.score > 0) := by
          simp only [List.map_cons, List.filter_cons, hsc]
          norm_num
        rw [hcons, ih]
        simp only [List.filter_cons, hf', Bool.false_eq_true, if_false, hp',
          Bool.not_false, Bool.true_and]

/-- C7: for a non-empty query, the quick-open search scores 10 for each path
whose filename (case-insensitively) contains the query, else 5 when the full
path contains it, excludes the rest, and orders the results by descending
score with ties kept in original MRU order — i.e. it equals the two-tier
ranked list. -/
theorem quickOpen_two_tier (rawQuery : String) (history : List String)
    (hq : rawQuery ≠ "") :
    quickOpenMatches rawQuery history = quickOpenRanked rawQuery history := by
  have hq' : strToLower rawQuery ≠ "" := by
    intro h
    have hdata : rawQuery.data.map Char.toLower = [] := by
      simpa [strToLower] using congrArg String.data h
    apply hq
    cases hr : rawQuery with
    | mk data =>
      rw [hr] at hdata
      simp only [List.map_eq_nil_iff] at hdata
      rw [hdata]
  simp only [quickOpenMatches, quickOpenRanked]
  rw [if_neg hq']
  exact quickOpen_sort_eq (strToLower rawQuery) history

/-- Witness for C7, instantiating Scenario D: query `"report"` over the
history `["/x/report.txt", "/y/report_old.txt"]` scores both as filename
matches (10) and preserves the original MRU order. -/
theorem quickOpen_two_tier_witness :
    quickOpenMatches "report" ["/x/report.txt", "/y/report_old.txt"]
        = quickOpenRanked "report" ["/x/report.txt", "/y/report_old.txt"]
    ∧ quickOpenMatches "report" ["/x/report.txt", "/y/report_old.txt"]
        = [⟨"/x/report.txt", 10⟩, ⟨"/y/report_old.txt", 10⟩] := by
  refine ⟨quickOpen_two_tier "report" ["/x/report.txt", "/y/report_old.txt"] (by decide), ?_⟩
  decide

/-- C2 counterexample: a workspace holding one empty untitled scratch tab
does not round-trip — `loadSession`'s restore filter drops the tab, so the
restored tab list (and active id) differ from the serialized workspace. -/
theorem session_roundtrip_drops_empty_untitled :
    (loadSession emptyFs (saveSession emptyScratchWorkspace)).tabs.map tabKey
        ≠ emptyScratchWorkspace.tabs.map tabKey
    ∧ (loadSession emptyFs (saveSession emptyScratchWorkspace)).tabs = []
    ∧ (loadSession emptyFs (saveSession emptyScratchWorkspace)).activeTabId
        ≠ emptyScratchWorkspace.activeTabId := by
  decide

/-- C2 (amended): for a workspace none of whose serialized tabs is filtered
out at restore (i.e. every untitled tab has non-empty embedded content),
whose backing files are all readable ("no external file changes"), whose
non-`.doc` tabs do not carry a `.doc` path, and whose active pointer names a
registered tab (or is null in the empty workspace), serialize-then-restore
reproduces the ordered tab list (ids, paths, titles, dirty flags), the
active tab id, and the stored cursor clamped to the restored active
document's length. -/
theorem session_roundtrip (w : Workspace) (fs : String → Option String)
    (hkeep : ∀ st ∈ (saveSession w).tabs, keepSessionTab st = true)
    (hfs : ∀ t ∈ w.tabs, ∀ p, t.path = some p → (fs p).isSome = true)
    (hkind : ∀ t ∈ w.tabs, t.isDoc = false → strEndsWith (t.path.getD "") ".doc" = false)
    (hactive : (w.tabs = [] ∧ w.activeTabId = none)
        ∨ ∃ a, w.activeTabId = some a ∧ ∃ t ∈ w.tabs, t.id = a) :
    (loadSession fs (saveSession w)).tabs.map tabKey = w.tabs.map tabKey
    ∧ (loadSession fs (saveSession w)).activeTabId = w.activeTabId
    ∧ (loadSession fs (saveSession w)).cursorPos
        = min (saveSession w).cursorPos (activeDocLength (loadSession fs (saveSession w))) := by
  rcases hactive with ⟨hnil, hact⟩ | ⟨a, hact, t0, ht0, hid0⟩
  · have hs : saveSession w = { tabs := [], activeTabId := none, cursorPos := 0 } := by
      simp [saveSession, saveSessionActiveTab, hnil, hact]
    have hl : loadSession fs { tabs := ([] : List STab), activeTabId := none, cursorPos := 0 }
        = { tabs := [], activeTabId := none, cursorPos := 0 } := rfl
    rw [hs, hl, hnil, hact]
    exact ⟨rfl, rfl, by simp [activeDocLength]⟩
  · have hw : w.tabs ≠ [] := fun h => by
      rw [h] at ht0
      exact absurd ht0 (List.not_mem_nil t0)
    have hpredopt : ∀ b : String, (fun t : CTab => some t.id == (some b : Option String))
        = (fun t : CTab => t.id == b) := fun b => funext fun t => rfl
    have hfilter : (saveSession w).tabs.filter keepSessionTab = (saveSession w).tabs :=
      List.filter_eq_self.mpr hkeep
    have hstabs : (saveSession w).tabs
        = w.tabs.map (sessionTabOf (some a) (saveSessionAdc w)) := by
      rw [← hact]
      rfl
    have hGid : ∀ t : CTab,
        (restoreTab fs (sessionTabOf (some a) (saveSessionAdc w) t)).id = t.id :=
      fun t => rfl
    have htabs2 : ((saveSession w).tabs).map (restoreTab fs)
        = w.tabs.map (fun t => restoreTab fs (sessionTabOf (some a) (saveSessionAdc w) t)) := by
      rw [hstabs, List.map_map]
      rfl
    have hne2 : ((saveSession w).tabs).isEmpty = false := by
      rw [hstabs]
      cases hwt : w.tabs with
      | nil => exact absurd hwt hw
      | cons x xs => rfl
    have hsact : (saveSession w).activeTabId = w.activeTabId := rfl
    have hany : (w.tabs.map (fun t =>
        restoreTab fs (sessionTabOf (some a) (saveSessionAdc w) t))).any
          (fun t => t.id == a) = true := by
      refine List.any_eq_true.mpr
        ⟨restoreTab fs (sessionTabOf (some a) (saveSessionAdc w) t0),
         List.mem_map_of_mem _ ht0, ?_⟩
      rw [hGid t0]
      exact beq_iff_eq.mpr hid0
    have hcore : loadSession fs (saveSession w)
        = ⟨w.tabs.map (fun t => restoreTab fs (sessionTabOf (some a) (saveSessionAdc w) t)),
           some a,
           match (w.tabs.map (fun t =>
               restoreTab fs (sessionTabOf (some a) (saveSessionAdc w) t))).find?
                 (fun t => t.id == a) with
           | some t => if t.isDoc then 0
               else min (saveSession w).cursorPos t.doc.data.length
           | none => 0⟩ := by
      simp only [loadSession]
      rw [hfilter, htabs2, hsact, hact]
      simp [hne2, hany]
    refine ⟨?_, by rw [hcore, hact], ?_⟩
    · rw [hcore]
      simp only [List.map_map]
      apply List.map_congr_left
      intro t ht
      show tabKey (restoreTab fs (sessionTabOf (some a) (saveSessionAdc w) t)) = tabKey t
      have hfst : ∀ p, (sessionTabOf (some a) (saveSessionAdc w) t).path = some p
          → (fs p).isSome = true := fun p hp => hfs t ht p hp
      rw [restoreTab_key _ _ hfst]
      exact sessionTabOf_key (some a) (saveSessionAdc w) t
    · have hcomp : ((fun t : CTab => t.id == a) ∘ (fun t =>
          restoreTab fs (sessionTabOf (some a) (saveSessionAdc w) t)))
            = (fun t : CTab => t.id == a) := by
        funext t
        show ((restoreTab fs (sessionTabOf (some a) (saveSessionAdc w) t)).id == a)
            = (t.id == a)
        rw [hGid t]
      rw [hcore]
      rw [activeDocLength_mk]
      split
      next t' hfind2 =>
        rw [List.find?_map, hcomp] at hfind2
        obtain ⟨u, hu, hGu⟩ := Option.map_eq_some'.mp hfind2
        have hsat : saveSessionActiveTab w = some u := by
          unfold saveSessionActiveTab
          rw [hact, hpredopt a]
          exact hu
        have hscur : (saveSession w).cursorPos = if u.isDoc then 0 else w.cursorPos := by
          show (match saveSessionActiveTab w with
            | some t => if t.isDoc then 0 else w.cursorPos
            | none => 0) = _
          rw [hsat]
        have hdoc : t'.isDoc = (u.isDoc || strEndsWith (u.path.getD "") ".doc") := by
          rw [← hGu]
          rfl
        cases hud : u.isDoc with
        | true =>
          have ht'doc : t'.isDoc = true := by rw [hdoc, hud, Bool.true_or]
          simp [ht'doc, hscur, hud, Nat.zero_min]
        | false =>
          have hkd := hkind u (List.mem_of_find?_eq_some hu) hud
          have ht'doc : t'.isDoc = false := by
            rw [hdoc, hud, hkd, Bool.or_false]
          simp [ht'doc, hscur, hud]
      next hfind2 => simp

/-- Witness for C2's amended round trip on a concrete two-tab workspace with
a readable backing file; the stored cursor 5 is clamped to the reloaded
document length. -/
theorem session_roundtrip_witness :
    (loadSession roundTripFs (saveSession roundTripWorkspace)).tabs.map tabKey
        = roundTripWorkspace.tabs.map tabKey
    ∧ (loadSession roundTripFs (saveSession roundTripWorkspace)).activeTabId
        = roundTripWorkspace.activeTabId
    ∧ (loadSession roundTripFs (saveSession roundTripWorkspace)).cursorPos
        = min (saveSession roundTripWorkspace).cursorPos
            (activeDocLength (loadSession roundTripFs (saveSession roundTripWorkspace))) := by
  refine session_roundtrip roundTripWorkspace roundTripFs (by decide) ?_ (by decide) ?_
  · intro t ht p hp
    fin_cases ht
    · obtain rfl : p = "/a.txt" := by simpa [cleanSavedTab] using hp.symm
      decide
    · simp [scratchDirtyTab] at hp
  · exact Or.inr ⟨"tab-1", rfl, cleanSavedTab, by decide, rfl⟩

/-- Witness for C1's amended statement at Scenario B's tab (`notes.todo`,
dirty, file readable): the prompt shows; `Yes` with a successful save writes
the content, clears the dirty flag on the closed tab, and removes it. -/
theorem closeTab_dirty_backed_prompt_witness :
    (closeTab ⟨Answer.yes, ⟨none, true⟩⟩ notesFs notesState "tab-3" false false).prompted = true
    ∧ (closeTab ⟨Answer.yes, ⟨none, true⟩⟩ notesFs notesState "tab-3" false false).result
        = CloseResult.closed
    ∧ (closeTab ⟨Answer.yes, ⟨none, true⟩⟩ notesFs notesState "tab-3" false false).writes
        = [("notes.todo", "buy milk")]
    ∧ ((closeTab ⟨Answer.yes, ⟨none, true⟩⟩ notesFs notesState "tab-3" false
        false).closedTab).map CTab.isUnsaved = some false
    ∧ (closeTab ⟨Answer.yes, ⟨none, true⟩⟩ notesFs notesState "tab-3" false false).state.tabs
        = notesState.tabs.eraseIdx 0 := by
  have h := closeTab_dirty_backed_prompt ⟨Answer.yes, ⟨none, true⟩⟩ notesFs notesState
    "tab-3" 0 notesTab "notes.todo" (by decide) (by decide) (by decide) (by decide) (by decide)
  obtain ⟨h1, -, h3⟩ := h
  obtain ⟨ha, hb, hc, hd⟩ := h3 rfl rfl
  exact ⟨h1, ha, hb, hc, hd⟩

/-- Sanity checks that the `List Char` string model matches the JS string
primitives on concrete data. -/
theorem jsString_model_checks :
    getFilename (some "/x/report.txt") = "report.txt"
    ∧ getFilename (some "C:\\a\\b.txt") = "b.txt"
    ∧ getFilename none = "Untitled"
    ∧ strIncludes "report_old.txt" "report" = true
    ∧ strToLower "REPORT.txt" = "report.txt"
    ∧ strTrim "  a b\n " = "a b"
    ∧ strEndsWith "notes.todo" ".todo" = true := by
  decide

end WebNotepad
